import Mathlib

/-!
Shallow embedding of `src/components/TransactionSummaryChart.tsx`
(zechub-wiki): the data loader `fetchTransactionData` and the series
aggregation performed inside the `TransactionsSummaryChart` component
(cumulative running totals, periodic monthly buckets, the weekly modulo
downsampling filter, the orchard-activation post filter, and the
selection of chart series handed to the renderer).
-/

namespace ZecHubWiki

/-- One record of the raw shielded-transaction time series
(`ShieldedTransactionDatum` in the source): per-height deltas. -/
structure RawSample where
  height : Int
  sapling : Int
  sapling_filter : Int
  orchard : Int
  orchard_filter : Int
deriving DecidableEq, Repr

/-- One aggregated chart point (the source reuses `ShieldedTransactionDatum`
with `null` allowed in `orchard` / `orchard_filter`; we model `null` as
`none`). -/
structure AggPoint where
  height : Int
  sapling : Int
  sapling_filter : Int
  orchard : Option Int
  orchard_filter : Option Int
deriving DecidableEq, Repr

/-- The four mutable accumulators `saplingSum`, `saplingFilterSum`,
`orchardSum`, `orchardFilterSum` of the component (lines 60-63). -/
structure SumState where
  saplingSum : Int
  saplingFilterSum : Int
  orchardSum : Int
  orchardFilterSum : Int
deriving DecidableEq, Repr

/-- The all-zero accumulator state (initialisation and reset value). -/
def stZero : SumState := ⟨0, 0, 0, 0⟩

/-- Adding one sample's deltas to the four accumulators
(lines 66-69 and 90-93 of the source). -/
def step (s : SumState) (d : RawSample) : SumState :=
  ⟨s.saplingSum + d.sapling, s.saplingFilterSum + d.sapling_filter,
   s.orchardSum + d.orchard, s.orchardFilterSum + d.orchard_filter⟩

/-- `const BLOCKS_PERIOD = 8064` — the weekly binning constant. -/
def BLOCKS_PERIOD : Int := 8064

/-- `const ORCHARD_ACTIVATION = 1687104`. -/
def ORCHARD_ACTIVATION : Int := 1687104

/-- The point built at each sample in cumulative mode (lines 71-77):
running totals, with `orchard` / `orchard_filter` null unless positive. -/
def cumPoint (d : RawSample) (s : SumState) : AggPoint :=
  { height := d.height
    sapling := s.saplingSum
    sapling_filter := s.saplingFilterSum
    orchard := if 0 < s.orchardSum then some s.orchardSum else none
    orchard_filter := if 0 < s.orchardFilterSum then some s.orchardFilterSum else none }

/-- The `chartData.map` pass of lines 65-78, with the accumulator state
threaded explicitly. -/
def chartDataSumAux (s : SumState) : List RawSample → List AggPoint
  | [] => []
  | d :: ds => cumPoint d (step s d) :: chartDataSumAux (step s d) ds

/-- `chartDataSum` of line 65: running totals starting from zero. -/
def chartDataSum (data : List RawSample) : List AggPoint :=
  chartDataSumAux stZero data

/-- Line 81: cumulative-mode output keeps only heights divisible by
`BLOCKS_PERIOD`. -/
def chartDataPeriodCumulative (data : List RawSample) : List AggPoint :=
  (chartDataSum data).filter (fun d => d.height % BLOCKS_PERIOD == 0)

/-- Line 95: the monthly bucket-boundary test `d.height % 32256 == 0`. -/
def isBoundary (d : RawSample) : Bool := d.height % 32256 == 0

/-- The point pushed at a bucket boundary in periodic mode (lines 96-102):
`sapling` and `orchard` are the raw bucket accumulations, the two
"filter" fields are complements (total minus filtered total). -/
def periodicPoint (d : RawSample) (s : SumState) : AggPoint :=
  { height := d.height
    sapling := s.saplingSum
    sapling_filter := s.saplingSum - s.saplingFilterSum
    orchard := if 0 < s.orchardSum then some s.orchardSum else none
    orchard_filter :=
      if 0 < s.orchardFilterSum then some (s.orchardSum - s.orchardFilterSum) else none }

/-- The `chartData.forEach` pass of lines 89-109: accumulate every sample;
at each boundary height emit one bucket point and reset the accumulators. -/
def periodicAux (s : SumState) : List RawSample → List AggPoint
  | [] => []
  | d :: ds =>
    if isBoundary d then periodicPoint d (step s d) :: periodicAux stZero ds
    else periodicAux (step s d) ds

/-- Periodic-mode output (`chartDataPeriod` when `cumulative` is false). -/
def chartDataPeriodPeriodic (data : List RawSample) : List AggPoint :=
  periodicAux stZero data

/-- The same pass as `periodicAux`, additionally recording the accumulator
state at each emission (the bucket totals). -/
def periodicAuxAcc (s : SumState) : List RawSample → List (AggPoint × SumState)
  | [] => []
  | d :: ds =>
    if isBoundary d then (periodicPoint d (step s d), step s d) :: periodicAuxAcc stZero ds
    else periodicAuxAcc (step s d) ds

/-- The value of the four accumulators after the `forEach` pass finishes
(the code keeps this state but never reads it again). -/
def leftoverState (s : SumState) : List RawSample → SumState
  | [] => s
  | d :: ds => if isBoundary d then leftoverState stZero ds else leftoverState (step s d) ds

/-- Lines 112-116: when the `pool` prop is `"orchard"`, drop points whose
height is below `ORCHARD_ACTIVATION`. -/
def applyPoolFilter (pool : String) (pts : List AggPoint) : List AggPoint :=
  if pool == "orchard" then pts.filter (fun d => decide (ORCHARD_ACTIVATION ≤ d.height)) else pts

/-- The whole point pipeline of the component body: mode selection
(lines 81-110) followed by the pool post-filter (lines 112-116). -/
def aggregate (pool : String) (cumulative : Bool) (data : List RawSample) : List AggPoint :=
  applyPoolFilter pool
    (if cumulative then chartDataPeriodCumulative data else chartDataPeriodPeriodic data)

/-- One dataset handed to the chart library: its label and `data` array
(nullable numbers). -/
structure ChartSeries where
  label : String
  data : List (Option Int)
deriving DecidableEq, Repr

/-- Lines 118-125. -/
def saplingChart (pts : List AggPoint) : ChartSeries :=
  { label := "Sapling", data := pts.map (fun d => some d.sapling) }

/-- Lines 127-134. -/
def saplingFilterChart (pts : List AggPoint) : ChartSeries :=
  { label := "Sapling Filter", data := pts.map (fun d => some d.sapling_filter) }

/-- Lines 136-143. -/
def orchardChart (pts : List AggPoint) : ChartSeries :=
  { label := "Orchard", data := pts.map (fun d => d.orchard) }

/-- Lines 145-152. -/
def orchardFilterChart (pts : List AggPoint) : ChartSeries :=
  { label := "Orchard Filter", data := pts.map (fun d => d.orchard_filter) }

/-- Lines 154-162: the `chartSets` array pushed in source order
(orchard filter, orchard, sapling filter, sapling). -/
def chartSets (pool : String) (filter : Bool) (pts : List AggPoint) : List ChartSeries :=
  (if pool == "default" || pool == "orchard" then
    (if filter then [orchardFilterChart pts] else []) ++ [orchardChart pts]
   else []) ++
  (if pool == "default" || pool == "sapling" then
    (if filter then [saplingFilterChart pts] else []) ++ [saplingChart pts]
   else [])

/-! ### The data loader (lines 32-39 and 49-55) -/

/-- A JSON value, as produced by `response.json()`. -/
inductive Js where
  | null
  | bool (b : Bool)
  | num (n : Int)
  | str (s : String)
  | arr (elems : List Js)
  | obj (fields : List (String × Js))

/-- An HTTP response as seen by `fetchTransactionData`: its `ok` flag, its
`status`, and `response.json()`'s result (`none` when the body is not
well-formed JSON, in which case `await response.json()` throws). -/
structure HttpResponse where
  ok : Bool
  status : Nat
  jsonBody : Option Js

/-- Outcome of the `fetch` call itself: either a transport failure
(the promise rejects) or a response. -/
inductive FetchResult where
  | networkError
  | success (r : HttpResponse)

/-- `fetchTransactionData` (lines 32-39): throw on `!response.ok`, propagate
a JSON parse failure, otherwise return the parsed value unvalidated. -/
def fetchTransactionData : FetchResult → Except String Js
  | .networkError => .error "TypeError: Failed to fetch"
  | .success r =>
    if !r.ok then .error ("HTTP error! status: " ++ toString r.status)
    else
      match r.jsonBody with
      | none => .error "SyntaxError: response body is not valid JSON"
      | some v => .ok v

/-- Component load state after the effect of lines 49-55 settles:
`ready` via `setChartData`, `failed` via `setError`. -/
inductive LoadState where
  | ready (body : Js)
  | failed (msg : String)

/-- The `.then`/`.catch` wiring of lines 51-54. -/
def loadOutcome (fr : FetchResult) : LoadState :=
  match fetchTransactionData fr with
  | .ok v => .ready v
  | .error e => .failed e

/-- Look up a key in a JSON object's field list. -/
def getField (fields : List (String × Js)) (k : String) : Option Js :=
  (fields.find? (fun p => p.1 == k)).map (fun p => p.2)

/-- Modelled from the spec: whether a JSON value matches the RawSample shape
(an object with numeric `height`, `sapling`, `sapling_filter`, `orchard`,
`orchard_filter`). The source performs no such validation; this definition
exists only to compare the spec's words with the code. -/
def decodeRawSample : Js → Option RawSample
  | .obj fields =>
    match getField fields "height", getField fields "sapling",
          getField fields "sapling_filter", getField fields "orchard",
          getField fields "orchard_filter" with
    | some (.num h), some (.num s), some (.num sf), some (.num o), some (.num og) =>
      some ⟨h, s, sf, o, og⟩
    | _, _, _, _, _ => none
  | _ => none

/-- Modelled from the spec: whether a JSON value is a well-formed array of
RawSample records. -/
def decodeSamples : Js → Option (List RawSample)
  | .arr elems => elems.mapM decodeRawSample
  | _ => none

/-! ### Spec-level accessories used in theorem statements -/

/-- Sum of the `sapling` deltas of a sample list. -/
def saplingTot (l : List RawSample) : Int := (l.map (fun d => d.sapling)).sum

/-- Sum of the `sapling_filter` deltas of a sample list. -/
def saplingFilterTot (l : List RawSample) : Int := (l.map (fun d => d.sapling_filter)).sum

/-- Sum of the `orchard` deltas of a sample list. -/
def orchardTot (l : List RawSample) : Int := (l.map (fun d => d.orchard)).sum

/-- Sum of the `orchard_filter` deltas of a sample list. -/
def orchardFilterTot (l : List RawSample) : Int := (l.map (fun d => d.orchard_filter)).sum

/-- All four deltas of every sample in the list are non-negative
(the data-model contract for RawSample). -/
def NonnegSamples (data : List RawSample) : Prop :=
  ∀ d ∈ data, 0 ≤ d.sapling ∧ 0 ≤ d.sapling_filter ∧ 0 ≤ d.orchard ∧ 0 ≤ d.orchard_filter

instance (data : List RawSample) : Decidable (NonnegSamples data) := by
  unfold NonnegSamples; infer_instance

/-- `mid ++ [d]` is one complete periodic bucket of `data`: `d` sits at a
monthly boundary, no earlier element of the bucket does, and whatever
precedes the bucket is empty or ends at a boundary. -/
def IsBucketOf (mid : List RawSample) (d : RawSample) (data : List RawSample) : Prop :=
  ∃ a b, data = a ++ mid ++ d :: b ∧
    (∀ e ∈ mid, ¬e.height % 32256 = 0) ∧
    d.height % 32256 = 0 ∧
    (a = [] ∨ ∃ da, a.getLast? = some da ∧ da.height % 32256 = 0)

/-- Componentwise order on accumulator states. -/
def stateLE (s t : SumState) : Prop :=
  s.saplingSum ≤ t.saplingSum ∧ s.saplingFilterSum ≤ t.saplingFilterSum ∧
  s.orchardSum ≤ t.orchardSum ∧ s.orchardFilterSum ≤ t.orchardFilterSum

/-- Order on chart points: both sapling fields, and the plotted value of the
two nullable orchard fields (`null` plotted as a gap, compared as 0). -/
def pointLE (p q : AggPoint) : Prop :=
  p.sapling ≤ q.sapling ∧ p.sapling_filter ≤ q.sapling_filter ∧
  p.orchard.getD 0 ≤ q.orchard.getD 0 ∧ p.orchard_filter.getD 0 ≤ q.orchard_filter.getD 0

/-! ### Helper lemmas -/

@[simp] lemma stZero_saplingSum : stZero.saplingSum = 0 := rfl

@[simp] lemma stZero_saplingFilterSum : stZero.saplingFilterSum = 0 := rfl

@[simp] lemma stZero_orchardSum : stZero.orchardSum = 0 := rfl

@[simp] lemma stZero_orchardFilterSum : stZero.orchardFilterSum = 0 := rfl

/-- Generic projection of a `step`-fold: any component of the accumulator
that `step` bumps by a per-sample delta ends up as the initial value plus
the sum of those deltas. -/
lemma foldl_step_proj (f : SumState → Int) (g : RawSample → Int)
    (hstep : ∀ s d, f (step s d) = f s + g d) :
    ∀ (l : List RawSample) (s : SumState), f (l.foldl step s) = f s + (l.map g).sum := by
  intro l
  induction l with
  | nil => intro s; simp
  | cons d ds ih =>
    intro s
    simp only [List.foldl_cons, List.map_cons, List.sum_cons]
    rw [ih, hstep]
    ring

lemma foldl_step_sapling (l : List RawSample) (s : SumState) :
    (l.foldl step s).saplingSum = s.saplingSum + saplingTot l :=
  foldl_step_proj (fun s => s.saplingSum) (fun d => d.sapling) (fun _ _ => rfl) l s

lemma foldl_step_saplingFilter (l : List RawSample) (s : SumState) :
    (l.foldl step s).saplingFilterSum = s.saplingFilterSum + saplingFilterTot l :=
  foldl_step_proj (fun s => s.saplingFilterSum) (fun d => d.sapling_filter) (fun _ _ => rfl) l s

lemma foldl_step_orchard (l : List RawSample) (s : SumState) :
    (l.foldl step s).orchardSum = s.orchardSum + orchardTot l :=
  foldl_step_proj (fun s => s.orchardSum) (fun d => d.orchard) (fun _ _ => rfl) l s

lemma foldl_step_orchardFilter (l : List RawSample) (s : SumState) :
    (l.foldl step s).orchardFilterSum = s.orchardFilterSum + orchardFilterTot l :=
  foldl_step_proj (fun s => s.orchardFilterSum) (fun d => d.orchard_filter) (fun _ _ => rfl) l s

/-- The `i`-th cumulative point is the `i`-th sample decorated with the
fold of `step` over the first `i+1` samples. -/
lemma chartDataSumAux_getElem? :
    ∀ (data : List RawSample) (s : SumState) (i : Nat) (d : RawSample),
      data[i]? = some d →
      (chartDataSumAux s data)[i]? = some (cumPoint d ((data.take (i + 1)).foldl step s)) := by
  intro data
  induction data with
  | nil => intro s i d h; simp at h
  | cons e es ih =>
    intro s i d h
    cases i with
    | zero =>
      simp only [List.getElem?_cons_zero, Option.some_inj] at h
      subst h
      simp [chartDataSumAux, List.take]
    | succ i =>
      simp only [List.getElem?_cons_succ] at h
      simpa [chartDataSumAux, List.take] using ih (step s e) i d h

lemma chartDataSumAux_length (data : List RawSample) :
    ∀ s, (chartDataSumAux s data).length = data.length := by
  induction data with
  | nil => intro s; rfl
  | cons e es ih => intro s; simp [chartDataSumAux, ih]

/-- `periodicAux` is the first projection of the instrumented pass. -/
lemma periodicAux_eq_map_fst (data : List RawSample) :
    ∀ s, periodicAux s data = (periodicAuxAcc s data).map Prod.fst := by
  induction data with
  | nil => intro s; rfl
  | cons d ds ih =>
    intro s
    by_cases h : isBoundary d <;> simp [periodicAux, periodicAuxAcc, h, ih]

/-- Each emitted periodic point's fields are the periodic-point rendering of
the bucket accumulator recorded beside it. -/
lemma periodicAuxAcc_fields (data : List RawSample) :
    ∀ s, ∀ x ∈ periodicAuxAcc s data,
      x.1.sapling = x.2.saplingSum ∧
      x.1.sapling_filter = x.2.saplingSum - x.2.saplingFilterSum ∧
      x.1.orchard = (if 0 < x.2.orchardSum then some x.2.orchardSum else none) ∧
      x.1.orchard_filter =
        (if 0 < x.2.orchardFilterSum then some (x.2.orchardSum - x.2.orchardFilterSum)
         else none) := by
  induction data with
  | nil => intro s x hx; simp [periodicAuxAcc] at hx
  | cons d ds ih =>
    intro s x hx
    by_cases h : isBoundary d
    · simp only [periodicAuxAcc, h, if_true, List.mem_cons] at hx
      rcases hx with rfl | hx
      · exact ⟨rfl, rfl, rfl, rfl⟩
      · exact ih stZero x hx
    · simp only [periodicAuxAcc, h, if_false] at hx
      exact ih (step s d) x hx

/-- One step of the bucket decomposition: every point emitted by the pass
starting at accumulator `s` either belongs to the first bucket of `rest`
(being the periodic point of the fold of that bucket over `s`), or is
emitted by the pass restarted from zero after the first boundary. -/
lemma periodicAux_first_bucket (rest : List RawSample) :
    ∀ s, ∀ p ∈ periodicAux s rest,
      (∃ mid d b, rest = mid ++ d :: b ∧ (∀ e ∈ mid, isBoundary e = false) ∧
        isBoundary d = true ∧ p = periodicPoint d ((mid ++ [d]).foldl step s)) ∨
      (∃ mid d b, rest = mid ++ d :: b ∧ isBoundary d = true ∧ p ∈ periodicAux stZero b) := by
  induction rest with
  | nil => intro s p hp; simp [periodicAux] at hp
  | cons e es ih =>
    intro s p hp
    by_cases h : isBoundary e
    · simp only [periodicAux, h, if_true, List.mem_cons] at hp
      rcases hp with rfl | hp
      · exact Or.inl ⟨[], e, es, rfl, by simp, h, by simp⟩
      · exact Or.inr ⟨[], e, es, rfl, h, hp⟩
    · have hfalse : isBoundary e = false := by revert h; cases isBoundary e <;> simp
      simp only [periodicAux, hfalse, Bool.false_eq_true, if_false] at hp
      rcases ih (step s e) p hp with ⟨mid, d, b, heq, hmid, hd, hpt⟩ |
        ⟨mid, d, b, heq, hd, hpb⟩
      · refine Or.inl ⟨e :: mid, d, b, by rw [heq]; rfl, ?_, hd, ?_⟩
        · intro x hx
          rcases List.mem_cons.mp hx with rfl | hx
          · exact hfalse
          · exact hmid x hx
        · rw [hpt]; simp
      · exact Or.inr ⟨e :: mid, d, b, by rw [heq]; rfl, hd, hpb⟩

/-- Every point of the periodic output is the periodic-point rendering of the
fold of `step` over a complete bucket of the input. -/
lemma periodic_mem_bucket :
    ∀ (n : Nat) (data : List RawSample), data.length ≤ n →
      ∀ p ∈ periodicAux stZero data,
        ∃ mid d, IsBucketOf mid d data ∧
          p = periodicPoint d ((mid ++ [d]).foldl step stZero) := by
  intro n
  induction n with
  | zero =>
    intro data hlen p hp
    have hnil : data = [] := List.length_eq_zero.mp (Nat.le_zero.mp hlen)
    subst hnil; simp [periodicAux] at hp
  | succ n ih =>
    intro data hlen p hp
    rcases periodicAux_first_bucket data stZero p hp with
      ⟨mid, d, b, heq, hmid, hd, hpt⟩ | ⟨mid, d, b, heq, hd, hpb⟩
    · refine ⟨mid, d, ⟨[], b, by simpa using heq, ?_, ?_, Or.inl rfl⟩, hpt⟩
      · intro e he
        have := hmid e he
        simpa [isBoundary] using this
      · simpa [isBoundary] using hd
    · have hb : b.length ≤ n := by
        subst heq; simp only [List.length_append, List.length_cons] at hlen; omega
      rcases ih b hb p hpb with ⟨mid', d', ⟨a', b', hbeq, hmid', hd', hlast⟩, hpt⟩
      refine ⟨mid', d', ⟨mid ++ d :: a', b', ?_, hmid', hd', ?_⟩, hpt⟩
      · subst hbeq; rw [heq]; simp
      · right
        rcases hlast with rfl | ⟨da, hda, hdab⟩
        · refine ⟨d, ?_, by simpa [isBoundary] using hd⟩
          rw [List.getLast?_append_cons]; rfl
        · refine ⟨da, ?_, hdab⟩
          rw [List.getLast?_append_cons]
          have hne : a' ≠ [] := by intro hn; subst hn; simp at hda
          rcases a' with _ | ⟨x, xs⟩
          · simp at hda
          · rw [List.getLast?_cons_cons]; exact hda

/-- Conservation: the initial value of a `step`-additive component plus all
its deltas equals the sum of the emitted bucket totals plus the leftover
accumulation. -/
lemma periodic_conservation_gen (f : SumState → Int) (g : RawSample → Int)
    (hstep : ∀ s d, f (step s d) = f s + g d) (hz : f stZero = 0) :
    ∀ (rest : List RawSample) (s : SumState),
      f s + (rest.map g).sum =
        ((periodicAuxAcc s rest).map (fun x => f x.2)).sum + f (leftoverState s rest) := by
  intro rest
  induction rest with
  | nil => intro s; simp [periodicAuxAcc, leftoverState]
  | cons d ds ih =>
    intro s
    by_cases h : isBoundary d
    · simp only [periodicAuxAcc, leftoverState, h, if_true, List.map_cons, List.sum_cons]
      have h1 := ih stZero
      rw [hz] at h1
      have h2 := hstep s d
      linarith
    · have hf : isBoundary d = false := by revert h; cases isBoundary d <;> simp
      simp only [periodicAuxAcc, leftoverState, hf, Bool.false_eq_true, if_false,
        List.map_cons, List.sum_cons]
      have h1 := ih (step s d)
      have h2 := hstep s d
      linarith

/-- When the input ends at a monthly boundary, the pass finishes with the
accumulators freshly reset to zero. -/
lemma leftoverState_last_boundary :
    ∀ (l : List RawSample) (s : SumState) (d : RawSample),
      l.getLast? = some d → isBoundary d = true → leftoverState s l = stZero := by
  intro l
  induction l with
  | nil => intro s d h _; simp at h
  | cons e es ih =>
    intro s d h hb
    rcases es with _ | ⟨x, xs⟩
    · have he : e = d := by simpa using h
      subst he
      simp [leftoverState, hb]
    · rw [List.getLast?_cons_cons] at h
      by_cases hbe : isBoundary e
      · simp only [leftoverState, hbe, if_true]
        exact ih stZero d h hb
      · have hf : isBoundary e = false := by revert hbe; cases isBoundary e <;> simp
        simp only [leftoverState, hf, Bool.false_eq_true, if_false]
        exact ih (step s e) d h hb

/-- The periodic pass over an appended list splits at the leftover state. -/
lemma periodicAux_append (l : List RawSample) :
    ∀ (t : List RawSample) (s : SumState),
      periodicAux s (l ++ t) = periodicAux s l ++ periodicAux (leftoverState s l) t := by
  induction l with
  | nil => intro t s; simp [periodicAux, leftoverState]
  | cons d ds ih =>
    intro t s
    by_cases h : isBoundary d <;>
      simp [periodicAux, leftoverState, h, ih]

/-- A boundary-free suffix emits nothing and just accumulates. -/
lemma periodicAux_no_boundary :
    ∀ (t : List RawSample), (∀ d ∈ t, isBoundary d = false) →
      ∀ s, periodicAux s t = [] ∧ leftoverState s t = t.foldl step s := by
  intro t
  induction t with
  | nil => intro _ s; exact ⟨rfl, rfl⟩
  | cons d ds ih =>
    intro h s
    have hd : isBoundary d = false := h d (List.mem_cons_self d ds)
    have hds : ∀ e ∈ ds, isBoundary e = false := fun e he => h e (List.mem_cons_of_mem d he)
    simp only [periodicAux, leftoverState, hd, Bool.false_eq_true, if_false, List.foldl_cons]
    exact ih hds (step s d)

/-- Appending splits the leftover accumulator computation. -/
lemma leftoverState_append (l : List RawSample) :
    ∀ (t : List RawSample) (s : SumState),
      leftoverState s (l ++ t) = leftoverState (leftoverState s l) t := by
  induction l with
  | nil => intro t s; rfl
  | cons d ds ih =>
    intro t s
    by_cases h : isBoundary d <;> simp [leftoverState, h, ih]

/-! ### Monotonicity helpers -/

lemma stateLE_refl (s : SumState) : stateLE s s := by
  unfold stateLE; omega

lemma stateLE_trans {s t u : SumState} (h1 : stateLE s t) (h2 : stateLE t u) :
    stateLE s u := by
  unfold stateLE at *; omega

lemma stateLE_step (s : SumState) (d : RawSample)
    (hd : 0 ≤ d.sapling ∧ 0 ≤ d.sapling_filter ∧ 0 ≤ d.orchard ∧ 0 ≤ d.orchard_filter) :
    stateLE s (step s d) := by
  unfold stateLE step
  dsimp only
  omega

lemma optIf_mono (a b : Int) (h : a ≤ b) :
    (if 0 < a then some a else none).getD 0 ≤ (if 0 < b then some b else none).getD 0 := by
  split_ifs <;> simp <;> omega

lemma pointLE_cumPoint (d1 d2 : RawSample) (s1 s2 : SumState) (h : stateLE s1 s2) :
    pointLE (cumPoint d1 s1) (cumPoint d2 s2) := by
  obtain ⟨h1, h2, h3, h4⟩ := h
  exact ⟨h1, h2, optIf_mono _ _ h3, optIf_mono _ _ h4⟩

/-- Every point of a cumulative pass started above `s1` dominates the point
rendered from `s1`. -/
lemma cumAux_all_ge :
    ∀ (ds : List RawSample), NonnegSamples ds →
      ∀ (s1 s2 : SumState), stateLE s1 s2 →
        ∀ (d1 : RawSample), ∀ q ∈ chartDataSumAux s2 ds, pointLE (cumPoint d1 s1) q := by
  intro ds
  induction ds with
  | nil => intro _ s1 s2 _ d1 q hq; simp [chartDataSumAux] at hq
  | cons e es ih =>
    intro hnn s1 s2 hle d1 q hq
    have hnne := hnn e (List.mem_cons_self e es)
    have hnnes : NonnegSamples es := fun x hx => hnn x (List.mem_cons_of_mem e hx)
    have hle2 : stateLE s1 (step s2 e) := stateLE_trans hle (stateLE_step s2 e hnne)
    simp only [chartDataSumAux, List.mem_cons] at hq
    rcases hq with rfl | hq
    · exact pointLE_cumPoint _ _ _ _ hle2
    · exact ih hnnes s1 (step s2 e) hle2 d1 q hq

/-- The cumulative pass is pointwise monotone for non-negative deltas. -/
lemma cumAux_pairwise :
    ∀ (ds : List RawSample), NonnegSamples ds →
      ∀ s, List.Pairwise pointLE (chartDataSumAux s ds) := by
  intro ds
  induction ds with
  | nil => intro _ s; simp [chartDataSumAux]
  | cons e es ih =>
    intro hnn s
    have hnne := hnn e (List.mem_cons_self e es)
    have hnnes : NonnegSamples es := fun x hx => hnn x (List.mem_cons_of_mem e hx)
    simp only [chartDataSumAux]
    refine List.Pairwise.cons ?_ (ih hnnes (step s e))
    intro q hq
    exact cumAux_all_ge es hnnes (step s e) (step s e) (stateLE_refl _) e q hq

/-! ### Claim theorems -/

/-- C4: In Cumulative mode the output is the strict modulo filter of the
per-sample running-total points: the i-th candidate point carries sample i's
height and the running totals over the first i+1 samples, points whose height
is not divisible by `BLOCKS_PERIOD` (8064) are dropped entirely (never merged),
and every retained point's height is an exact multiple of 8064. -/
theorem cumulative_modulo_filter (data : List RawSample) :
    chartDataPeriodCumulative data =
      (chartDataSum data).filter (fun p => p.height % BLOCKS_PERIOD == 0) ∧
    (chartDataSum data).length = data.length ∧
    (∀ (i : Nat) (d : RawSample), data[i]? = some d →
      (chartDataSum data)[i]? = some (cumPoint d ((data.take (i + 1)).foldl step stZero))) ∧
    (∀ p ∈ chartDataPeriodCumulative data, p.height % BLOCKS_PERIOD = 0) := by
  refine ⟨rfl, chartDataSumAux_length data stZero, ?_, ?_⟩
  · intro i d h
    exact chartDataSumAux_getElem? data stZero i d h
  · intro p hp
    simp only [chartDataPeriodCumulative, List.mem_filter, beq_iff_eq] at hp
    exact hp.2

/-- Witness for C4 at a one-sample input whose height is 8064. -/
theorem cumulative_modulo_filter_witness :
    (chartDataSum [⟨8064, 1, 2, 3, 4⟩])[0]? =
      some (cumPoint ⟨8064, 1, 2, 3, 4⟩
        (([(⟨8064, 1, 2, 3, 4⟩ : RawSample)].take 1).foldl step stZero)) ∧
    (⟨8064, 1, 2, some 3, some 4⟩ : AggPoint).height % BLOCKS_PERIOD = 0 :=
  ⟨(cumulative_modulo_filter [⟨8064, 1, 2, 3, 4⟩]).2.2.1 0 ⟨8064, 1, 2, 3, 4⟩ (by decide),
   (cumulative_modulo_filter [⟨8064, 1, 2, 3, 4⟩]).2.2.2 ⟨8064, 1, 2, some 3, some 4⟩
     (by decide)⟩

/-- C6: with the `"orchard"` pool, post-processing keeps exactly the
aggregated points whose height is not strictly below `ORCHARD_ACTIVATION`
(1687104), in both modes. -/
theorem orchard_activation_filter (cumulative : Bool) (data : List RawSample) :
    aggregate "orchard" cumulative data =
      (if cumulative then chartDataPeriodCumulative data
       else chartDataPeriodPeriodic data).filter
        (fun p => decide (ORCHARD_ACTIVATION ≤ p.height)) ∧
    ∀ p, (p ∈ aggregate "orchard" cumulative data ↔
      p ∈ (if cumulative then chartDataPeriodCumulative data
           else chartDataPeriodPeriodic data) ∧ ¬p.height < ORCHARD_ACTIVATION) := by
  have hagg : aggregate "orchard" cumulative data =
      (if cumulative then chartDataPeriodCumulative data
       else chartDataPeriodPeriodic data).filter
        (fun p => decide (ORCHARD_ACTIVATION ≤ p.height)) := by
    simp [aggregate, applyPoolFilter]
  refine ⟨hagg, ?_⟩
  intro p
  rw [hagg, List.mem_filter]
  simp [not_lt]

/-- Witness for C6 in Periodic mode on a one-sample input. -/
theorem orchard_activation_filter_witness :
    aggregate "orchard" false [⟨0, 1, 2, 3, 4⟩] =
      (if false then chartDataPeriodCumulative [⟨0, 1, 2, 3, 4⟩]
       else chartDataPeriodPeriodic [⟨0, 1, 2, 3, 4⟩]).filter
        (fun p => decide (ORCHARD_ACTIVATION ≤ p.height)) :=
  (orchard_activation_filter false [⟨0, 1, 2, 3, 4⟩]).1

/-- C7: for every input with non-negative deltas, the cumulative output is
monotonically non-decreasing in all four tracked quantities (the nullable
orchard fields compared by their plotted value, `null` as 0). -/
theorem cumulative_monotone (data : List RawSample) (hnn : NonnegSamples data) :
    List.Pairwise pointLE (chartDataPeriodCumulative data) :=
  List.Pairwise.sublist (List.filter_sublist _) (cumAux_pairwise data hnn stZero)

/-- Witness for C7 on a two-sample input producing two chart points. -/
theorem cumulative_monotone_witness :
    NonnegSamples [⟨0, 1, 1, 1, 1⟩, ⟨8064, 1, 1, 1, 1⟩] ∧
    List.Pairwise pointLE (chartDataPeriodCumulative [⟨0, 1, 1, 1, 1⟩, ⟨8064, 1, 1, 1, 1⟩]) :=
  ⟨by decide, cumulative_monotone [⟨0, 1, 1, 1, 1⟩, ⟨8064, 1, 1, 1, 1⟩] (by decide)⟩

/-- C8: height 0 is a bucket boundary: when the first sample has height 0,
one bucket is emitted for it whose accumulated totals are exactly that
sample's own deltas, and the pass continues on the remaining samples with
all four accumulators reset to zero. -/
theorem height_zero_boundary (d : RawSample) (ds : List RawSample) (h : d.height = 0) :
    chartDataPeriodPeriodic (d :: ds) =
      periodicPoint d ⟨d.sapling, d.sapling_filter, d.orchard, d.orchard_filter⟩ ::
        chartDataPeriodPeriodic ds ∧
    leftoverState stZero (d :: ds) = leftoverState stZero ds := by
  have hb : isBoundary d = true := by simp [isBoundary, h]
  have hstep : step stZero d = ⟨d.sapling, d.sapling_filter, d.orchard, d.orchard_filter⟩ := by
    simp [step, stZero]
  constructor
  · simp only [chartDataPeriodPeriodic, periodicAux, hb, if_true, hstep]
  · simp only [leftoverState, hb, if_true]

/-- Witness for C8 on a concrete height-0 head sample. -/
theorem height_zero_boundary_witness :
    (⟨0, 10, 3, 5, 2⟩ : RawSample).height = 0 ∧
    (chartDataPeriodPeriodic [⟨0, 10, 3, 5, 2⟩, ⟨1, 1, 1, 1, 1⟩] =
      periodicPoint ⟨0, 10, 3, 5, 2⟩ ⟨10, 3, 5, 2⟩ ::
        chartDataPeriodPeriodic [⟨1, 1, 1, 1, 1⟩] ∧
     leftoverState stZero [⟨0, 10, 3, 5, 2⟩, ⟨1, 1, 1, 1, 1⟩] =
       leftoverState stZero [⟨1, 1, 1, 1, 1⟩]) :=
  ⟨rfl, height_zero_boundary ⟨0, 10, 3, 5, 2⟩ [⟨1, 1, 1, 1, 1⟩] rfl⟩

/-- C9: deltas arriving after the last monthly boundary appear in no emitted
bucket: appending a boundary-free tail leaves the periodic output unchanged,
the tail's deltas being folded only into the discarded leftover accumulators. -/
theorem periodic_tail_discarded (front tail : List RawSample)
    (h : ∀ d ∈ tail, ¬d.height % 32256 = 0) :
    chartDataPeriodPeriodic (front ++ tail) = chartDataPeriodPeriodic front ∧
    leftoverState stZero (front ++ tail) = tail.foldl step (leftoverState stZero front) := by
  have hb : ∀ d ∈ tail, isBoundary d = false := by
    intro d hd
    simp only [isBoundary, beq_eq_false_iff_ne]
    exact h d hd
  obtain ⟨hemit, hleft⟩ := periodicAux_no_boundary tail hb (leftoverState stZero front)
  constructor
  · rw [chartDataPeriodPeriodic, periodicAux_append front tail stZero, hemit, List.append_nil]
    rfl
  · rw [leftoverState_append front tail stZero, hleft]

/-- Witness for C9: one boundary sample followed by one off-boundary sample. -/
theorem periodic_tail_discarded_witness :
    (∀ d ∈ [(⟨5, 2, 2, 2, 2⟩ : RawSample)], ¬d.height % 32256 = 0) ∧
    (chartDataPeriodPeriodic ([⟨0, 1, 1, 1, 1⟩] ++ [⟨5, 2, 2, 2, 2⟩]) =
      chartDataPeriodPeriodic [⟨0, 1, 1, 1, 1⟩] ∧
     leftoverState stZero ([⟨0, 1, 1, 1, 1⟩] ++ [⟨5, 2, 2, 2, 2⟩]) =
       [(⟨5, 2, 2, 2, 2⟩ : RawSample)].foldl step (leftoverState stZero [⟨0, 1, 1, 1, 1⟩])) :=
  ⟨by decide, periodic_tail_discarded [⟨0, 1, 1, 1, 1⟩] [⟨5, 2, 2, 2, 2⟩] (by decide)⟩

/-- C10: for every pool string other than "default", "orchard" and "sapling",
the series list handed to the renderer is empty, whatever the filter flag and
the aggregated points. -/
theorem chartSets_empty_unknown_pool (pool : String) (filter : Bool) (pts : List AggPoint)
    (h1 : pool ≠ "default") (h2 : pool ≠ "orchard") (h3 : pool ≠ "sapling") :
    chartSets pool filter pts = [] := by
  have e1 : (pool == "default") = false := beq_eq_false_iff_ne.mpr h1
  have e2 : (pool == "orchard") = false := beq_eq_false_iff_ne.mpr h2
  have e3 : (pool == "sapling") = false := beq_eq_false_iff_ne.mpr h3
  simp [chartSets, e1, e2, e3]

/-- Witness for C10 at the pool string "transparent". -/
theorem chartSets_empty_unknown_pool_witness :
    ("transparent" ≠ "default" ∧ "transparent" ≠ "orchard" ∧ "transparent" ≠ "sapling") ∧
    chartSets "transparent" true [⟨0, 1, 2, some 3, some 4⟩] = [] :=
  ⟨⟨by decide, by decide, by decide⟩,
   chartSets_empty_unknown_pool "transparent" true [⟨0, 1, 2, some 3, some 4⟩]
     (by decide) (by decide) (by decide)⟩

/-- Sums of non-negative deltas over any selection of input samples are
non-negative. -/
lemma tot_nonneg (data l : List RawSample) (hnn : NonnegSamples data)
    (hsub : ∀ x ∈ l, x ∈ data) :
    0 ≤ saplingTot l ∧ 0 ≤ saplingFilterTot l ∧ 0 ≤ orchardTot l ∧ 0 ≤ orchardFilterTot l := by
  refine ⟨?_, ?_, ?_, ?_⟩
  · simp only [saplingTot]
    apply List.sum_nonneg
    intro x hx
    obtain ⟨e, he, rfl⟩ := List.mem_map.mp hx
    exact (hnn e (hsub e he)).1
  · simp only [saplingFilterTot]
    apply List.sum_nonneg
    intro x hx
    obtain ⟨e, he, rfl⟩ := List.mem_map.mp hx
    exact (hnn e (hsub e he)).2.1
  · simp only [orchardTot]
    apply List.sum_nonneg
    intro x hx
    obtain ⟨e, he, rfl⟩ := List.mem_map.mp hx
    exact (hnn e (hsub e he)).2.2.1
  · simp only [orchardFilterTot]
    apply List.sum_nonneg
    intro x hx
    obtain ⟨e, he, rfl⟩ := List.mem_map.mp hx
    exact (hnn e (hsub e he)).2.2.2

lemma periodic_conservation_sapling (data : List RawSample) (s : SumState) :
    s.saplingSum + saplingTot data =
      ((periodicAuxAcc s data).map (fun x => x.2.saplingSum)).sum +
        (leftoverState s data).saplingSum := by
  simpa [saplingTot] using
    periodic_conservation_gen (fun t => t.saplingSum) (fun d => d.sapling)
      (fun _ _ => rfl) rfl data s

lemma periodic_conservation_saplingFilter (data : List RawSample) (s : SumState) :
    s.saplingFilterSum + saplingFilterTot data =
      ((periodicAuxAcc s data).map (fun x => x.2.saplingFilterSum)).sum +
        (leftoverState s data).saplingFilterSum := by
  simpa [saplingFilterTot] using
    periodic_conservation_gen (fun t => t.saplingFilterSum) (fun d => d.sapling_filter)
      (fun _ _ => rfl) rfl data s

lemma periodic_conservation_orchard (data : List RawSample) (s : SumState) :
    s.orchardSum + orchardTot data =
      ((periodicAuxAcc s data).map (fun x => x.2.orchardSum)).sum +
        (leftoverState s data).orchardSum := by
  simpa [orchardTot] using
    periodic_conservation_gen (fun t => t.orchardSum) (fun d => d.orchard)
      (fun _ _ => rfl) rfl data s

lemma periodic_conservation_orchardFilter (data : List RawSample) (s : SumState) :
    s.orchardFilterSum + orchardFilterTot data =
      ((periodicAuxAcc s data).map (fun x => x.2.orchardFilterSum)).sum +
        (leftoverState s data).orchardFilterSum := by
  simpa [orchardFilterTot] using
    periodic_conservation_gen (fun t => t.orchardFilterSum) (fun d => d.orchard_filter)
      (fun _ _ => rfl) rfl data s

/-- C1: every emitted Periodic-mode point renders its bucket's raw
accumulated totals: `sapling` is the raw bucket total, `orchard` (when
present) the raw bucket total, while the two filtered fields are the
complements — accumulated total minus accumulated filtered total — rather
than the raw filtered accumulation. -/
theorem periodic_bucket_fields (data : List RawSample) :
    ∀ p ∈ chartDataPeriodPeriodic data,
      ∃ mid d, IsBucketOf mid d data ∧
        p.height = d.height ∧
        p.sapling = saplingTot (mid ++ [d]) ∧
        p.sapling_filter = saplingTot (mid ++ [d]) - saplingFilterTot (mid ++ [d]) ∧
        p.orchard = (if 0 < orchardTot (mid ++ [d])
          then some (orchardTot (mid ++ [d])) else none) ∧
        p.orchard_filter = (if 0 < orchardFilterTot (mid ++ [d])
          then some (orchardTot (mid ++ [d]) - orchardFilterTot (mid ++ [d])) else none) := by
  intro p hp
  obtain ⟨mid, d, hbk, hpt⟩ := periodic_mem_bucket data.length data le_rfl p hp
  have hsap := foldl_step_sapling (mid ++ [d]) stZero
  have hsf := foldl_step_saplingFilter (mid ++ [d]) stZero
  have ho := foldl_step_orchard (mid ++ [d]) stZero
  have hof := foldl_step_orchardFilter (mid ++ [d]) stZero
  rw [stZero_saplingSum, zero_add] at hsap
  rw [stZero_saplingFilterSum, zero_add] at hsf
  rw [stZero_orchardSum, zero_add] at ho
  rw [stZero_orchardFilterSum, zero_add] at hof
  refine ⟨mid, d, hbk, ?_, ?_, ?_, ?_, ?_⟩
  · rw [hpt]; rfl
  · rw [hpt]
    show ((mid ++ [d]).foldl step stZero).saplingSum = _
    rw [hsap]
  · rw [hpt]
    show ((mid ++ [d]).foldl step stZero).saplingSum -
      ((mid ++ [d]).foldl step stZero).saplingFilterSum = _
    rw [hsap, hsf]
  · rw [hpt]
    show (if 0 < ((mid ++ [d]).foldl step stZero).orchardSum
      then some ((mid ++ [d]).foldl step stZero).orchardSum else none) = _
    rw [ho]
  · rw [hpt]
    show (if 0 < ((mid ++ [d]).foldl step stZero).orchardFilterSum
      then some (((mid ++ [d]).foldl step stZero).orchardSum -
        ((mid ++ [d]).foldl step stZero).orchardFilterSum) else none) = _
    rw [ho, hof]

/-- Witness for C1: the single bucket of a one-sample input at height 0. -/
theorem periodic_bucket_fields_witness :
    (⟨0, 10, 7, some 5, some 3⟩ : AggPoint) ∈ chartDataPeriodPeriodic [⟨0, 10, 3, 5, 2⟩] ∧
    (∃ mid d, IsBucketOf mid d [⟨0, 10, 3, 5, 2⟩] ∧
      (⟨0, 10, 7, some 5, some 3⟩ : AggPoint).height = d.height ∧
      (⟨0, 10, 7, some 5, some 3⟩ : AggPoint).sapling = saplingTot (mid ++ [d]) ∧
      (⟨0, 10, 7, some 5, some 3⟩ : AggPoint).sapling_filter =
        saplingTot (mid ++ [d]) - saplingFilterTot (mid ++ [d]) ∧
      (⟨0, 10, 7, some 5, some 3⟩ : AggPoint).orchard =
        (if 0 < orchardTot (mid ++ [d]) then some (orchardTot (mid ++ [d])) else none) ∧
      (⟨0, 10, 7, some 5, some 3⟩ : AggPoint).orchard_filter =
        (if 0 < orchardFilterTot (mid ++ [d])
         then some (orchardTot (mid ++ [d]) - orchardFilterTot (mid ++ [d])) else none)) :=
  ⟨by decide, periodic_bucket_fields [⟨0, 10, 3, 5, 2⟩] ⟨0, 10, 7, some 5, some 3⟩ (by decide)⟩

/-- C2 counterexample: on the non-negative input `[⟨0, 0, 0, 5, 0⟩]` the
single periodic bucket has orchard accumulation 5 (nonzero), yet the emitted
`orchard_filter` is absent — refuting the claim that in Periodic mode both
orchard fields are absent only when the bucket's orchard accumulation is
exactly zero. -/
theorem orchard_filter_absence_counterexample :
    chartDataPeriodPeriodic [⟨0, 0, 0, 5, 0⟩] = [⟨0, 0, 0, some 5, none⟩] ∧
    orchardTot [⟨0, 0, 0, 5, 0⟩] = 5 ∧
    NonnegSamples [⟨0, 0, 0, 5, 0⟩] :=
  ⟨by decide, by decide, by decide⟩

/-- C2 amended: with non-negative deltas, each nullable field is absent
exactly when its own accumulated value is zero — in Cumulative mode the
running `orchard` (resp. `orchard_filter`) prefix total, in Periodic mode
the bucket's `orchard` (resp. `orchard_filter`) accumulation; absence of
`orchard_filter` does not track the `orchard` accumulation. -/
theorem orchard_absence_iff_zero (data : List RawSample) (hnn : NonnegSamples data) :
    (∀ (i : Nat) (d : RawSample), data[i]? = some d →
      ∃ p, (chartDataSum data)[i]? = some p ∧
        (p.orchard = none ↔ orchardTot (data.take (i + 1)) = 0) ∧
        (p.orchard_filter = none ↔ orchardFilterTot (data.take (i + 1)) = 0)) ∧
    (∀ p ∈ chartDataPeriodCumulative data,
      ∃ (i : Nat), (chartDataSum data)[i]? = some p ∧ i < data.length) ∧
    (∀ p ∈ chartDataPeriodPeriodic data,
      ∃ mid d, IsBucketOf mid d data ∧
        (p.orchard = none ↔ orchardTot (mid ++ [d]) = 0) ∧
        (p.orchard_filter = none ↔ orchardFilterTot (mid ++ [d]) = 0)) := by
  refine ⟨?_, ?_, ?_⟩
  · intro i d h
    refine ⟨cumPoint d ((data.take (i + 1)).foldl step stZero),
      chartDataSumAux_getElem? data stZero i d h, ?_, ?_⟩
    · have h0 := (tot_nonneg data (data.take (i + 1)) hnn
        (fun x hx => List.mem_of_mem_take hx)).2.2.1
      simp only [cumPoint]
      rw [foldl_step_orchard, stZero_orchardSum, zero_add]
      split_ifs with hlt <;> simp <;> omega
    · have h0 := (tot_nonneg data (data.take (i + 1)) hnn
        (fun x hx => List.mem_of_mem_take hx)).2.2.2
      simp only [cumPoint]
      rw [foldl_step_orchardFilter, stZero_orchardFilterSum, zero_add]
      split_ifs with hlt <;> simp <;> omega
  · intro p hp
    have hmem := List.mem_of_mem_filter hp
    obtain ⟨i, hi⟩ := List.mem_iff_getElem?.mp hmem
    refine ⟨i, hi, ?_⟩
    have hlt := (List.getElem?_eq_some_iff.mp hi).1
    have hlen := chartDataSumAux_length data stZero
    simp only [chartDataSum] at hlt
    omega
  · intro p hp
    obtain ⟨mid, d, hbk, hpt⟩ := periodic_mem_bucket data.length data le_rfl p hp
    obtain ⟨a, b, hdata, hmid, hd, hlast⟩ := hbk
    have hsub : ∀ x ∈ mid ++ [d], x ∈ data := by
      intro x hx
      rw [hdata]
      rcases List.mem_append.mp hx with h1 | h1
      · simp [h1]
      · simp only [List.mem_singleton] at h1
        subst h1
        simp
    refine ⟨mid, d, ⟨a, b, hdata, hmid, hd, hlast⟩, ?_, ?_⟩
    · have h0 := (tot_nonneg data (mid ++ [d]) hnn hsub).2.2.1
      rw [hpt]
      simp only [periodicPoint]
      rw [foldl_step_orchard, stZero_orchardSum, zero_add]
      split_ifs with hlt <;> simp <;> omega
    · have h0 := (tot_nonneg data (mid ++ [d]) hnn hsub).2.2.2
      rw [hpt]
      simp only [periodicPoint]
      rw [foldl_step_orchardFilter, stZero_orchardFilterSum, zero_add]
      split_ifs with hlt <;> simp <;> omega

/-- Witness for the amended C2 on a concrete non-negative input. -/
theorem orchard_absence_iff_zero_witness :
    NonnegSamples [⟨0, 1, 2, 3, 4⟩] ∧
    ((∀ (i : Nat) (d : RawSample), [(⟨0, 1, 2, 3, 4⟩ : RawSample)][i]? = some d →
      ∃ p, (chartDataSum [⟨0, 1, 2, 3, 4⟩])[i]? = some p ∧
        (p.orchard = none ↔ orchardTot ([(⟨0, 1, 2, 3, 4⟩ : RawSample)].take (i + 1)) = 0) ∧
        (p.orchard_filter = none ↔
          orchardFilterTot ([(⟨0, 1, 2, 3, 4⟩ : RawSample)].take (i + 1)) = 0)) ∧
     (∀ p ∈ chartDataPeriodCumulative [⟨0, 1, 2, 3, 4⟩],
       ∃ (i : Nat), (chartDataSum [⟨0, 1, 2, 3, 4⟩])[i]? = some p ∧
         i < [(⟨0, 1, 2, 3, 4⟩ : RawSample)].length) ∧
     (∀ p ∈ chartDataPeriodPeriodic [⟨0, 1, 2, 3, 4⟩],
       ∃ mid d, IsBucketOf mid d [⟨0, 1, 2, 3, 4⟩] ∧
         (p.orchard = none ↔ orchardTot (mid ++ [d]) = 0) ∧
         (p.orchard_filter = none ↔ orchardFilterTot (mid ++ [d]) = 0))) :=
  ⟨by decide, orchard_absence_iff_zero [⟨0, 1, 2, 3, 4⟩] (by decide)⟩

/-- C3: when the input ends at a monthly boundary (clean partition), the
periodic bucket totals sum, component by component, to the final cumulative
running totals; the recorded pairs project onto the real periodic output and
their accumulators determine the emitted fields. -/
theorem periodic_conservation (data : List RawSample)
    (hlast : ∀ d, data.getLast? = some d → d.height % 32256 = 0) :
    chartDataPeriodPeriodic data = (periodicAuxAcc stZero data).map Prod.fst ∧
    (∀ x ∈ periodicAuxAcc stZero data,
      x.1.sapling = x.2.saplingSum ∧
      x.1.sapling_filter = x.2.saplingSum - x.2.saplingFilterSum ∧
      x.1.orchard = (if 0 < x.2.orchardSum then some x.2.orchardSum else none) ∧
      x.1.orchard_filter = (if 0 < x.2.orchardFilterSum
        then some (x.2.orchardSum - x.2.orchardFilterSum) else none)) ∧
    ((periodicAuxAcc stZero data).map (fun x => x.2.saplingSum)).sum =
      (data.foldl step stZero).saplingSum ∧
    ((periodicAuxAcc stZero data).map (fun x => x.2.saplingFilterSum)).sum =
      (data.foldl step stZero).saplingFilterSum ∧
    ((periodicAuxAcc stZero data).map (fun x => x.2.orchardSum)).sum =
      (data.foldl step stZero).orchardSum ∧
    ((periodicAuxAcc stZero data).map (fun x => x.2.orchardFilterSum)).sum =
      (data.foldl step stZero).orchardFilterSum := by
  have hleft : leftoverState stZero data = stZero := by
    rcases data with _ | ⟨e, es⟩
    · rfl
    · rcases hgl : (e :: es).getLast? with _ | d
      · simp at hgl
      · refine leftoverState_last_boundary (e :: es) stZero d hgl ?_
        simp only [isBoundary, beq_iff_eq]
        exact hlast d hgl
  refine ⟨periodicAux_eq_map_fst data stZero, periodicAuxAcc_fields data stZero, ?_, ?_, ?_, ?_⟩
  · have h1 := periodic_conservation_sapling data stZero
    rw [hleft, stZero_saplingSum, zero_add, add_zero] at h1
    rw [foldl_step_sapling, stZero_saplingSum, zero_add]
    exact h1.symm
  · have h1 := periodic_conservation_saplingFilter data stZero
    rw [hleft, stZero_saplingFilterSum, zero_add, add_zero] at h1
    rw [foldl_step_saplingFilter, stZero_saplingFilterSum, zero_add]
    exact h1.symm
  · have h1 := periodic_conservation_orchard data stZero
    rw [hleft, stZero_orchardSum, zero_add, add_zero] at h1
    rw [foldl_step_orchard, stZero_orchardSum, zero_add]
    exact h1.symm
  · have h1 := periodic_conservation_orchardFilter data stZero
    rw [hleft, stZero_orchardFilterSum, zero_add, add_zero] at h1
    rw [foldl_step_orchardFilter, stZero_orchardFilterSum, zero_add]
    exact h1.symm

/-- Witness for C3 on a two-sample input ending at a monthly boundary. -/
theorem periodic_conservation_witness :
    (∀ d, ([(⟨5, 1, 1, 1, 1⟩ : RawSample), ⟨32256, 2, 2, 2, 2⟩]).getLast? = some d →
      d.height % 32256 = 0) ∧
    ((periodicAuxAcc stZero [⟨5, 1, 1, 1, 1⟩, ⟨32256, 2, 2, 2, 2⟩]).map
      (fun x => x.2.saplingSum)).sum =
      ([(⟨5, 1, 1, 1, 1⟩ : RawSample), ⟨32256, 2, 2, 2, 2⟩].foldl step stZero).saplingSum :=
  ⟨by decide,
   (periodic_conservation [⟨5, 1, 1, 1, 1⟩, ⟨32256, 2, 2, 2, 2⟩] (by decide)).2.2.1⟩

/-- C5 counterexample: a 200 response whose body is well-formed JSON but does
not match the RawSample shape loads successfully and puts the component in
the Ready state — the code performs no shape validation, contradicting the
claim that such a load fails. -/
theorem fetch_shape_counterexample :
    fetchTransactionData (.success ⟨true, 200, some (Js.num 0)⟩) = .ok (Js.num 0) ∧
    decodeSamples (Js.num 0) = none ∧
    loadOutcome (.success ⟨true, 200, some (Js.num 0)⟩) = .ready (Js.num 0) :=
  ⟨rfl, rfl, rfl⟩

/-- C5 amended: the load fails exactly when the fetch rejects, the response
status is non-ok, or the body is not well-formed JSON; the RawSample shape is
never validated, and a successful load returns the parsed JSON body as-is. -/
theorem fetch_failure_iff (fr : FetchResult) :
    ((∃ e, fetchTransactionData fr = .error e) ↔
      (fr = .networkError ∨
        ∃ r, fr = .success r ∧ (r.ok = false ∨ r.jsonBody = none))) ∧
    (∀ v, fetchTransactionData fr = .ok v →
      ∃ r, fr = .success r ∧ r.ok = true ∧ r.jsonBody = some v) := by
  rcases fr with _ | ⟨ok, status, body⟩
  · constructor
    · constructor
      · intro _
        exact Or.inl rfl
      · intro _
        exact ⟨"TypeError: Failed to fetch", rfl⟩
    · intro v hv
      simp [fetchTransactionData] at hv
  · rcases ok with _ | _
    · constructor
      · constructor
        · intro _
          exact Or.inr ⟨⟨false, status, body⟩, rfl, Or.inl rfl⟩
        · intro _
          exact ⟨"HTTP error! status: " ++ toString status, by simp [fetchTransactionData]⟩
      · intro v hv
        simp [fetchTransactionData] at hv
    · rcases body with _ | ⟨j⟩
      · constructor
        · constructor
          · intro _
            exact Or.inr ⟨⟨true, status, none⟩, rfl, Or.inr rfl⟩
          · intro _
            exact ⟨"SyntaxError: response body is not valid JSON",
              by simp [fetchTransactionData]⟩
        · intro v hv
          simp [fetchTransactionData] at hv
      · constructor
        · constructor
          · rintro ⟨e, he⟩
            simp [fetchTransactionData] at he
          · rintro (h | ⟨r, hr, hcase⟩)
            · exact absurd h (by simp)
            · obtain rfl : r = ⟨true, status, some j⟩ := by
                cases hr
                rfl
              rcases hcase with h | h <;> simp at h
        · intro v hv
          simp only [fetchTransactionData, Bool.not_true, Bool.false_eq_true, if_false] at hv
          cases hv
          exact ⟨⟨true, status, some j⟩, rfl, rfl, rfl⟩

/-- Witness for the amended C5: an ok response with a well-formed JSON body
loads that body successfully. -/
theorem fetch_failure_iff_witness :
    ∃ r, FetchResult.success ⟨true, 200, some Js.null⟩ = FetchResult.success r ∧
      r.ok = true ∧ r.jsonBody = some Js.null :=
  (fetch_failure_iff (.success ⟨true, 200, some Js.null⟩)).2 Js.null rfl

example : chartDataPeriodPeriodic [⟨0, 0, 0, 5, 0⟩] = [⟨0, 0, 0, some 5, none⟩] := by decide

example : chartDataPeriodCumulative [⟨0, 1, 2, 3, 4⟩, ⟨5, 1, 1, 1, 1⟩] =
    [⟨0, 1, 2, some 3, some 4⟩] := by decide

end ZecHubWiki
